import Mathlib

/-!
Verification development for `src/analyzer.py` (Su57/LogAnalyzer).

The file shallowly embeds the core of `LogAnalyzer`: the per-profile
regular-expression registry (`LOG_REGULAR_EXPRESSIONS`), the line matcher,
the month filter (`check_date`), the request classifier (`parse_request`),
the daily aggregator (`store_into_container`), the per-line driver loop of
`analyzer`, and the report builder (`get_fukuoka_result`).

Python behaviour is modelled explicitly:
* exceptions are values of `PyErr`, and fallible code returns `Except PyErr _`;
* `dict` objects are insertion-ordered association lists and `dict.get`
  returns `Option`;
* machine integers do not occur (all counts are small `Nat` sums).

All definitions are structurally recursive so that every concrete theorem
below evaluates inside the kernel.
-/

/-- The Python exception classes that the analyzer's code paths can raise. -/
inductive PyErr where
  | valueError
  | attributeError
  | typeError
  deriving DecidableEq, Repr

/-! ## Small string / digit utilities -/

/-- The character of a decimal digit (only applied to values below 10). -/
def digChar : Nat → Char
  | 0 => '0' | 1 => '1' | 2 => '2' | 3 => '3' | 4 => '4'
  | 5 => '5' | 6 => '6' | 7 => '7' | 8 => '8' | _ => '9'

/-- Little-endian decimal digits, fuel-recursive so that it reduces in the
kernel (the fuel `n + 1` always suffices). -/
def toDigitsRevAux : Nat → Nat → List Char
  | 0, _ => []
  | fuel + 1, n =>
    if n < 10 then [digChar n]
    else digChar (n % 10) :: toDigitsRevAux fuel (n / 10)

/-- Decimal rendering of a natural number (no padding), most significant
digit first; models Python's rendering of an integer. -/
def natToChars (n : Nat) : List Char :=
  (toDigitsRevAux (n + 1) n).reverse

/-- Numeric value of a little-endian digit-character list. -/
def digitsRevVal : List Char → Nat
  | [] => 0
  | c :: rest => (c.toNat - 48) + 10 * digitsRevVal rest

/-- Two-digit zero padded rendering, as produced by `strftime('%m')` /
`strftime('%d')` for values below 100. -/
def pad2 (n : Nat) : List Char :=
  if n < 10 then ['0', digChar n] else natToChars n

/-- Split a character list at the first occurrence of `c`; `none` when `c`
does not occur. -/
def splitOnce (c : Char) : List Char → Option (List Char × List Char)
  | [] => none
  | x :: xs =>
    if x = c then some ([], xs)
    else match splitOnce c xs with
      | none => none
      | some (a, b) => some (x :: a, b)

/-- `some n` when the nonempty character list is all decimal digits
(the value Python's `int` would give it). -/
def decToNat (cs : List Char) : Option Nat :=
  if cs ≠ [] && cs.all Char.isDigit then
    some (cs.foldl (fun a c => 10 * a + (c.toNat - 48)) 0)
  else none

/-! ## `datetime.strptime(s, '%d/%b/%Y:%H:%M:%S')`

CPython's `_strptime` compiles the format to a regular expression
(`%d` → 1–2 digit day, `%b` → case-insensitive abbreviated month name,
`%Y` → exactly four digits, `%H`/`%M`/`%S` → 1–2 digits) that must consume
the whole input, and then the `datetime` constructor validates the ranges
(year ≥ 1, 1 ≤ day ≤ days-in-month, hour ≤ 23, minute ≤ 59, second ≤ 59;
the `6[0-1]` leap seconds accepted by the `%S` regex are rejected by the
constructor, so the net effect is second ≤ 59).
`parseLogDatetime` returns `none` exactly when `strptime` / `datetime`
raise `ValueError`. -/

/-- The parsed timestamp of one log record (a Python `datetime` value). -/
structure PDate where
  year : Nat
  month : Nat
  day : Nat
  hour : Nat
  minute : Nat
  second : Nat
  deriving DecidableEq, Repr

/-- The `strptime('%b')` month table: lower-cased three-letter abbreviation
to month number (matching is case-insensitive; callers lower-case first). -/
def monthTable : List (List Char × Nat) :=
  [(['j','a','n'], 1), (['f','e','b'], 2), (['m','a','r'], 3),
   (['a','p','r'], 4), (['m','a','y'], 5), (['j','u','n'], 6),
   (['j','u','l'], 7), (['a','u','g'], 8), (['s','e','p'], 9),
   (['o','c','t'], 10), (['n','o','v'], 11), (['d','e','c'], 12)]

def monthLookup : List (List Char × Nat) → List Char → Option Nat
  | [], _ => none
  | (k, v) :: rest, cs => if cs = k then some v else monthLookup rest cs

def monthFromAbbr (cs : List Char) : Option Nat :=
  monthLookup monthTable cs

/-- Gregorian leap-year rule (`calendar.isleap`). -/
def isLeap (y : Nat) : Bool :=
  y % 4 = 0 && (y % 100 ≠ 0 || y % 400 = 0)

/-- Number of days in a month (as validated by the `datetime` constructor). -/
def daysInMonth (y m : Nat) : Nat :=
  if m = 2 then (if isLeap y then 29 else 28)
  else if m = 4 || m = 6 || m = 9 || m = 11 then 30
  else 31

/-- `datetime.strptime(s, '%d/%b/%Y:%H:%M:%S')`: `some` on success, `none`
when `strptime` or the `datetime` constructor raises `ValueError`. -/
def parseLogDatetime (s : String) : Option PDate :=
  match splitOnce '/' s.toList with
  | none => none
  | some (dayCs, rest1) =>
  match splitOnce '/' rest1 with
  | none => none
  | some (monCs, rest2) =>
  match splitOnce ':' rest2 with
  | none => none
  | some (yearCs, rest3) =>
  match splitOnce ':' rest3 with
  | none => none
  | some (hourCs, rest4) =>
  match splitOnce ':' rest4 with
  | none => none
  | some (minCs, secCs) =>
  match decToNat dayCs, decToNat yearCs, decToNat hourCs, decToNat minCs,
      decToNat secCs with
  | some d, some y, some hh, some mm, some ss =>
    match monthFromAbbr (monCs.map Char.toLower) with
    | none => none
    | some m =>
      if dayCs.length ≤ 2 && yearCs.length = 4 && hourCs.length ≤ 2 &&
          minCs.length ≤ 2 && secCs.length ≤ 2 &&
          1 ≤ y && 1 ≤ d && d ≤ daysInMonth y m &&
          hh ≤ 23 && mm ≤ 59 && ss ≤ 59 then
        some ⟨y, m, d, hh, mm, ss⟩
      else none
  | _, _, _, _, _ => none

/-- Days before January 1st of year `y` in the proleptic Gregorian calendar
(the `_days_before_year` helper behind `datetime.toordinal`). -/
def daysBeforeYear (y : Nat) : Nat :=
  365 * (y - 1) + (y - 1) / 4 - (y - 1) / 100 + (y - 1) / 400

/-- Days before the first of month `m` within year `y`. -/
def daysBeforeMonth (y m : Nat) : Nat :=
  (List.range (m - 1)).foldl (fun a i => a + daysInMonth y (i + 1)) 0

/-- `datetime.toordinal()`: day 1 is 0001-01-01. -/
def pyOrdinal (d : PDate) : Nat :=
  daysBeforeYear d.year + daysBeforeMonth d.year d.month + d.day

/-- `datetime.weekday()`: Monday is `0`, Sunday is `6`
(0001-01-01 has ordinal 1 and is a Monday in the proleptic Gregorian
calendar). -/
def pyWeekday (d : PDate) : Nat :=
  (pyOrdinal d - 1) % 7

/-- `date.strftime('%Y/%m/%d')` (the aggregation key `date_str`). -/
def fmtDate (d : PDate) : String :=
  ⟨natToChars d.year ++ '/' :: (pad2 d.month ++ '/' :: pad2 d.day)⟩

/-! ## The pattern registry (`LOG_REGULAR_EXPRESSIONS`) and allowed pairs

Python dictionaries are modelled as insertion-ordered association lists;
`dict.get(k)` is `pyGet`, returning `none` where Python returns `None`.
The heterogeneous values of one profile dictionary (a regex source string
vs. a list of path patterns) are a `RegVal`. -/

inductive RegVal where
  | pat (s : String)
  | strs (l : List String)
  deriving DecidableEq, Repr

def pyGet {α β : Type} [DecidableEq α] : List (α × β) → α → Option β
  | [], _ => none
  | (k, v) :: rest, key => if k = key then some v else pyGet rest key

/-- The value of a profile key when it holds a list of patterns.  Every key
the classifier reads (`index_pattern`, `route_patterns`, `diagram_patterns`,
`fare_patterns`) holds a list wherever it is present in the registry, so the
string-valued case cannot be confused with it. -/
def dictGetStrs (d : List (String × RegVal)) (k : String) : Option (List String) :=
  match pyGet d k with
  | some (.strs l) => some l
  | _ => none

/-- `LOG_REGULAR_EXPRESSIONS['fukuoka']['sp']` (keys in source order). -/
def fukuoka_sp : List (String × RegVal) :=
  [("index_pattern", .strs ["/"]),
   ("pattern", .pat "(?P<remote_addr>[\\d\\.]\x7b7,\x7d)\\s-\\s-\\s(?:\\[(?P<datetime>[^\\[\\]]+)\\])\\s\"(?P<request>[^\"]+)\"\\s(?P<status>\\d+)\\s(?P<size>\\d+)\\s\"(?:[^\"]+)\"\\s\"(?P<user_agent>[^\"]+)\""),
   ("route_patterns", .strs ["/schedule/m_search", "/schedule/m_search_detail", "/mobilet"]),
   ("diagram_patterns", .strs ["/schedule/m_eki_diagram_k", "/schedule/m_eki_diagram_n"]),
   ("fare_patterns", .strs ["/fare/fare_index"])]

/-- `LOG_REGULAR_EXPRESSIONS['fukuoka']['pc']`.  Note the key names: the
trigger lists are stored under `route_pattern` / `diagram_pattern` /
`fare_pattern` (singular), while the classifier reads the plural keys. -/
def fukuoka_pc : List (String × RegVal) :=
  [("index_pattern", .strs ["/"]),
   ("pattern", .pat "(?P<remote_addr>[\\d\\.]\x7b7,\x7d)\\s(?P<identity>[\\w.-]+)\\s(?P<user_id>[\\w.-]|\"+)\\s(?:\\[(?P<datetime>[^\\[\\]]+)\\])\\s\"(?P<request>[^\"]+)\"\\s(?P<status>\\d+)\\s(?P<size>\\d+|-)\\s(?P<response_time>\\d+)\\s\"(?:[^\"]+)\"\\s\"(?P<user_agent>[^\"]+)\""),
   ("route_pattern", .strs ["route", "nsresult"]),
   ("diagram_pattern", .strs ["diagram"]),
   ("fare_pattern", .strs ["fare"])]

def LOG_REGULAR_EXPRESSIONS :
    List (String × List (String × List (String × RegVal))) :=
  [("fukuoka", [("sp", fukuoka_sp), ("pc", fukuoka_pc)])]

def ALLOWED_SERVER_NAMES : List String := ["fukuoka", "zentanbus"]

def ALLOWED_SERVER_TYPES : List String := ["pc", "sp"]

/-- Lines 66–67 of `__init__`:
`self.regulars = LOG_REGULAR_EXPRESSIONS.get(server_name).get(server_type)`
followed by `re.compile(self.regulars.get('pattern'))`.  An unknown
`server_name` makes `.get(server_type)` an attribute access on `None`
(`AttributeError`); an unknown `server_type` leaves `self.regulars = None`
so `self.regulars.get('pattern')` raises `AttributeError`; a missing
`pattern` key would hand `None` to `re.compile` (`TypeError`).  All of this
happens during construction, before `check_args` and before any line is
read. -/
def initRegulars (server_name server_type : String) :
    Except PyErr (List (String × RegVal)) :=
  match pyGet LOG_REGULAR_EXPRESSIONS server_name with
  | none => .error .attributeError
  | some inner =>
    match pyGet inner server_type with
    | none => .error .attributeError
    | some regs =>
      match pyGet regs "pattern" with
      | none => .error .typeError
      | some _ => .ok regs

/-- A resolved profile is complete when the keys the classifier reads are
all present (the line pattern itself is already required by
`initRegulars`). -/
def completeProfileB (server_name server_type : String) : Bool :=
  match initRegulars server_name server_type with
  | .error _ => false
  | .ok regs =>
    (dictGetStrs regs "index_pattern").isSome &&
    (dictGetStrs regs "route_patterns").isSome &&
    (dictGetStrs regs "diagram_patterns").isSome &&
    (dictGetStrs regs "fare_patterns").isSome

/-- `JAPANESE_WEEKDAY_NAMES` of the source, verbatim: index 0 maps to
日曜日 (Sunday), …, index 6 to 土曜日 (Saturday). -/
def JAPANESE_WEEKDAY_NAMES : List (Nat × String) :=
  [(0, "日曜日"), (1, "月曜日"), (2, "火曜日"), (3, "水曜日"),
   (4, "木曜日"), (5, "金曜日"), (6, "土曜日")]

/-! ## The line matcher (the `fukuoka`/`sp` pattern under `re.search`)

The `sp` pattern is a concatenation of literal characters, single `\s`
classes, and greedy quantified classes `[\d\.]{7,}`, `[^\[\]]+`, `[^"]+`,
`\d+`.  Every quantified class excludes the character the pattern requires
right after it (whitespace after digits/dots, `]` after `[^\[\]]+`, `"`
after `[^"]+`, whitespace after `\d+`), so the greedy maximal-munch parse
below is exactly the backtracking regex match, and `re.search` is the first
position at which it succeeds. -/

structure ParsedLine where
  remote_addr : String
  datetime : String
  request : String
  status : String
  size : String
  user_agent : String
  deriving DecidableEq, Repr

/-- The ASCII characters of the regex class `\s`. -/
def isSpaceChar (c : Char) : Bool :=
  c = ' ' || c = '\t' || c = '\n' || c = '\r' || c = '\x0b' || c = '\x0c'

def isDigitDot (c : Char) : Bool :=
  c.isDigit || c = '.'

def expectChar (c : Char) : List Char → Option (List Char)
  | [] => none
  | x :: xs => if x = c then some xs else none

def expectSpace : List Char → Option (List Char)
  | [] => none
  | x :: xs => if isSpaceChar x then some xs else none

def takeClass (p : Char → Bool) (cs : List Char) : List Char × List Char :=
  (cs.takeWhile p, cs.dropWhile p)

/-- The opening `[\d\.]{7,}\s-\s-\s\[` of the pattern: the remote address
(at least seven digits/dots) and the literal ` - - [`. -/
def matchHead (cs : List Char) : Option (List Char × List Char) :=
  let (ra, r0) := takeClass isDigitDot cs
  if ra.length < 7 then none else
  (expectSpace r0).bind fun r1 =>
  (expectChar '-' r1).bind fun r2 =>
  (expectSpace r2).bind fun r3 =>
  (expectChar '-' r3).bind fun r4 =>
  (expectSpace r4).bind fun r5 =>
  (expectChar '[' r5).bind fun r6 =>
  some (ra, r6)

/-- `(?P<datetime>[^\[\]]+)\]\s"`: the datetime group up to the closing
bracket, then the space and the opening quote of the request. -/
def matchDatetime (r6 : List Char) : Option (List Char × List Char) :=
  let (dt, r7) := takeClass (fun c => !(c = '[' || c = ']')) r6
  if dt.isEmpty then none else
  (expectChar ']' r7).bind fun r8 =>
  (expectSpace r8).bind fun r9 =>
  (expectChar '"' r9).bind fun r10 =>
  some (dt, r10)

/-- `(?P<request>[^"]+)"\s`: the request group, closing quote and space. -/
def matchRequest (r10 : List Char) : Option (List Char × List Char) :=
  let (req, r11) := takeClass (fun c => !(c = '"')) r10
  if req.isEmpty then none else
  (expectChar '"' r11).bind fun r12 =>
  (expectSpace r12).bind fun r13 =>
  some (req, r13)

/-- `\d+\s`: a digit group (status, then size) followed by a space. -/
def matchDigits (r13 : List Char) : Option (List Char × List Char) :=
  let (st, r14) := takeClass Char.isDigit r13
  if st.isEmpty then none else
  (expectSpace r14).bind fun r15 =>
  some (st, r15)

/-- `"(?:[^"]+)"\s`: the non-capturing quoted referrer and its space. -/
def matchQuotedSkip (r16 : List Char) : Option (List Char) :=
  (expectChar '"' r16).bind fun r17 =>
  let (ref, r18) := takeClass (fun c => !(c = '"')) r17
  if ref.isEmpty then none else
  (expectChar '"' r18).bind fun r19 =>
  (expectSpace r19).bind fun r20 =>
  some r20

/-- `"(?P<user_agent>[^"]+)"`: the final quoted user-agent group. -/
def matchUserAgent (r20 : List Char) : Option (List Char) :=
  (expectChar '"' r20).bind fun r21 =>
  let (ua, r22) := takeClass (fun c => !(c = '"')) r21
  if ua.isEmpty then none else
  (expectChar '"' r22).bind fun _ =>
  some ua

/-- Match the `sp` line pattern at one fixed position, as the sequence of
its components. -/
def matchAt (cs : List Char) : Option ParsedLine :=
  (matchHead cs).bind fun (ra, r6) =>
  (matchDatetime r6).bind fun (dt, r10) =>
  (matchRequest r10).bind fun (req, r13) =>
  (matchDigits r13).bind fun (st, r15) =>
  (matchDigits r15).bind fun (sz, r16) =>
  (matchQuotedSkip r16).bind fun r20 =>
  (matchUserAgent r20).bind fun ua =>
  some ⟨⟨ra⟩, ⟨dt⟩, ⟨req⟩, ⟨st⟩, ⟨sz⟩, ⟨ua⟩⟩

/-- `re.search`: try the pattern at each start position, left to right. -/
def reSearch : List Char → Option ParsedLine
  | [] => matchAt []
  | c :: cs =>
    match matchAt (c :: cs) with
    | some r => some r
    | none => reSearch cs

/-- `parse_group`: the `try/except AttributeError` around
`self.log_regx_obj.search` can never fire (the compiled pattern object is
not `None`), so this is simply the search. -/
def parse_group (log_record : String) : Option ParsedLine :=
  reSearch log_record.toList

/-- `int()` applied to a capture of `\d+` (all digits). -/
def pyInt (s : String) : Nat :=
  s.toList.foldl (fun a c => 10 * a + (c.toNat - 48)) 0

/-! ## The request classifier (`parse_request`) -/

/-- Splitting a character list at every separator character, keeping empty
pieces (the semantics of Python's `str.split(sep)`). -/
def splitCharsAux (p : Char → Bool) : List Char → List Char → List String
  | [], acc => [⟨acc.reverse⟩]
  | c :: cs, acc =>
    if p c then ⟨acc.reverse⟩ :: splitCharsAux p cs []
    else splitCharsAux p cs (c :: acc)

/-- Python `s.split(' ')`: cut at every single space, keeping empty
pieces. -/
def pySplitSpace (s : String) : List String :=
  splitCharsAux (fun c => c = ' ') s.toList []

/-- A literal substring test on character lists. -/
def isPrefixList : List Char → List Char → Bool
  | [], _ => true
  | _ :: _, [] => false
  | a :: as, b :: bs => a == b && isPrefixList as bs

def isInfixList (pat : List Char) : List Char → Bool
  | [] => isPrefixList pat []
  | c :: cs => isPrefixList pat (c :: cs) || isInfixList pat cs

/-- `re.search(pattern, url)` for a registry trigger pattern.  Every trigger
in the registry is free of regex metacharacters, so the search is a plain
substring test. -/
def reSearchSub (pat url : String) : Bool :=
  isInfixList pat.toList url.toList

/-- `parse_request` (lines 94–128).  `request.split(' ')[1]` raising
`IndexError` returns Python `None` (`.ok none`); reading a trigger list
through `regulars.get(...)` when the key is absent yields `None`, and the
subsequent `in` / `for` on `None` raises `TypeError`.  Each trigger loop
carries the pair of counters it mutates. -/
def parse_request (regs : List (String × RegVal)) (request : String) :
    Except PyErr (Option (Nat × Nat × Nat × Nat)) :=
  match (pySplitSpace request).get? 1 with
  | none => .ok none
  | some url =>
    match dictGetStrs regs "index_pattern" with
    | none => .error .typeError
    | some ip =>
      let effective0 : Nat := if ip.contains url then 1 else 0
      match dictGetStrs regs "route_patterns" with
      | none => .error .typeError
      | some rps =>
        let er := rps.foldl
          (fun (er : Nat × Nat) p => if reSearchSub p url then (1, 1) else er)
          (effective0, 0)
        match dictGetStrs regs "diagram_patterns" with
        | none => .error .typeError
        | some dps =>
          let ed := dps.foldl
            (fun (ed : Nat × Nat) p => if reSearchSub p url then (1, 1) else ed)
            (er.1, 0)
          match dictGetStrs regs "fare_patterns" with
          | none => .error .typeError
          | some fps =>
            let ef := fps.foldl
              (fun (ef : Nat × Nat) p => if reSearchSub p url then (1, 1) else ef)
              (ed.1, 0)
            .ok (some (ef.1, er.2, ed.2, ef.2))

/-! ## The month filter (`check_date`) -/

/-- Python `s.split(' ')[0]`; the split list is never empty, so the `""`
default is unreachable. -/
def spaceHead (s : String) : String :=
  (pySplitSpace s).headD ""

/-- `check_date` (lines 81–92).  The `try` block only catches
`AttributeError` (which would require the match object to be `None`, and
the caller guarantees it is not); the `ValueError` that
`datetime.strptime` raises on an unparseable timestamp is NOT caught and
propagates out of the method. -/
def check_date (datetimeField : String) (month : Nat) :
    Except PyErr (Bool × String) :=
  let date_time := spaceHead datetimeField
  match parseLogDatetime date_time with
  | none => .error .valueError
  | some d => .ok (d.month == month, date_time)

/-! ## The daily aggregator (`store_into_container`) -/

/-- One value of `self.container`: the six-element list
`[date_str, weekday_name, effective, route, diagram, fare]`. -/
structure Bucket where
  date_str : String
  weekday_name : String
  effective : Nat
  route : Nat
  diagram : Nat
  fare : Nat
  deriving DecidableEq, Repr

/-- `self.container`: a dict keyed by `date_str`, in insertion order. -/
abbrev Container := List (String × Bucket)

/-- In-place update of the value stored under key `k`
(`self.container[date_str][i] += ...`). -/
def setAssoc (c : Container) (k : String) (b : Bucket) : Container :=
  c.map (fun p => if p.1 = k then (p.1, b) else p)

/-- Lines 140–155 of `store_into_container`, for an already-parsed date:
derive `date_str` and `weekday_name`, classify the request, and
insert-or-accumulate into the container.  The bare `except: pass` on lines
143–146 swallows every exception coming out of `parse_request` (including
the `TypeError` from unpacking a `None` result), leaving the container
untouched.  `pyWeekday d` is below 7, so the weekday-name lookup always
succeeds and the `""` default is unreachable. -/
def absorbP (regs : List (String × RegVal)) (d : PDate) (request : String)
    (c : Container) : Container :=
  let date_str := fmtDate d
  let weekday_name := (pyGet JAPANESE_WEEKDAY_NAMES (pyWeekday d)).getD ""
  match parse_request regs request with
  | .error _ => c
  | .ok none => c
  | .ok (some (e, r, dg, f)) =>
    match pyGet c date_str with
    | none => c ++ [(date_str, ⟨date_str, weekday_name, e, r, dg, f⟩)]
    | some b =>
      setAssoc c date_str
        ⟨b.date_str, b.weekday_name, b.effective + e, b.route + r,
          b.diagram + dg, b.fare + f⟩

/-- `store_into_container` (lines 137–155).  The `strptime` on line 139 is
outside any `try` and raises `ValueError` for an unparseable `date_time`;
the rest of the method is `absorbP`. -/
def store_into_container (regs : List (String × RegVal))
    (date_time request : String) (c : Container) : Except PyErr Container :=
  match parseLogDatetime date_time with
  | none => .error .valueError
  | some d => .ok (absorbP regs d request c)

/-! ## The per-line driver (`analyzer`, lines 249–282) -/

/-- The mutable per-run state the loop body touches: the container and the
two diagnostics sinks (each sink is the sequence of
`(file path, raw line)` pairs appended to the corresponding text file). -/
structure AnalyzerState where
  container : Container
  invalid : List (String × String)
  unusual : List (String × String)
  deriving DecidableEq, Repr

/-- `get_invalid` (lines 229–239): append `(file, record)` to the invalid
sink only when `collect_invalid` is set; otherwise do nothing.
(`os.path.abspath` normalisation of the file name is a filesystem concern
and is elided: the file identity is recorded as given.) -/
def get_invalid (collect_invalid : Bool) (file log_record : String)
    (st : AnalyzerState) : AnalyzerState :=
  if collect_invalid then
    { st with invalid := st.invalid ++ [(file, log_record)] }
  else st

/-- `get_unusual` (lines 220–227): append `(file, record)` to the unusual
sink.  With the registry's patterns (which all have a `request` group) the
call site in `analyzer` is unreachable, but the sink is part of the
observable state. -/
def get_unusual (file log_record : String) (st : AnalyzerState) :
    AnalyzerState :=
  { st with unusual := st.unusual ++ [(file, log_record)] }

/-- One iteration of the `while` loop of `analyzer` (lines 256–282) on a
decoded line: regex search; on no match, route to the invalid sink and
continue; drop records whose status is not 200; month-filter via
`check_date` (whose `ValueError` propagates and aborts the run); store the
surviving record.  The `except AttributeError` branch around
`result.group('request')` cannot fire for these patterns, since the
`request` group always exists on a successful match. -/
def processLine (regs : List (String × RegVal)) (month : Nat)
    (collect_invalid : Bool) (file : String) (st : AnalyzerState)
    (log_record : String) : Except PyErr AnalyzerState :=
  match parse_group log_record with
  | none => .ok (get_invalid collect_invalid file log_record st)
  | some result =>
    if pyInt result.status ≠ 200 then .ok st
    else
      match check_date result.datetime month with
      | .error e => .error e
      | .ok (is_current_month, date_time) =>
        if !(is_current_month && !(date_time == "")) then .ok st
        else
          match store_into_container regs date_time result.request
              st.container with
          | .error e => .error e
          | .ok c2 => .ok { st with container := c2 }

/-- The loop of `analyzer` over the decoded lines of one file. -/
def runLines (regs : List (String × RegVal)) (month : Nat)
    (collect_invalid : Bool) (file : String) (st : AnalyzerState) :
    List String → Except PyErr AnalyzerState
  | [] => .ok st
  | l :: ls =>
    match processLine regs month collect_invalid file st l with
    | .error e => .error e
    | .ok st2 => runLines regs month collect_invalid file st2 ls

/-- Folding `store_into_container` over a sequence of accepted
`(date_time, request)` records. -/
def runStore (regs : List (String × RegVal)) (c : Container) :
    List (String × String) → Except PyErr Container
  | [] => .ok c
  | (dt, req) :: rest =>
    match store_into_container regs dt req c with
    | .error e => .error e
    | .ok c2 => runStore regs c2 rest

/-- The effect of one `store_into_container` call on the container when the
call does not raise (`absorbStep` is `absorbP` for records whose
`date_time` parses, the identity otherwise — the latter case never occurs
under the parse hypotheses used below, since `store_into_container` raises
there instead). -/
def absorbStep (regs : List (String × RegVal)) (rec : String × String)
    (c : Container) : Container :=
  match parseLogDatetime rec.1 with
  | some d => absorbP regs d rec.2 c
  | none => c

/-- The pure fold of `absorbStep` over a record sequence (equal to
`runStore` when every record's `date_time` parses). -/
def foldAbsorb (regs : List (String × RegVal)) :
    List (String × String) → Container → Container
  | [], c => c
  | rec :: rest, c => foldAbsorb regs rest (absorbStep regs rec c)

/-! ## The report builder (`get_fukuoka_result`, lines 157–218)

Only the in-memory `stat_body` construction is modelled; writing the JSON
file is an external sink. -/

structure StatBody where
  total_stat : Nat
  route_stat : Nat
  diagram_stat : Nat
  fare_stat : Nat
  weekday_stat : List (String × Nat)
  daily_stat : List (String × Nat)
  deriving DecidableEq, Repr

/-- The initial `weekday_stat` dict (lines 166–174), in source order. -/
def weekdayStatInit : List (String × Nat) :=
  [("日曜日", 0), ("月曜日", 0), ("火曜日", 0), ("水曜日", 0),
   ("木曜日", 0), ("金曜日", 0), ("土曜日", 0)]

/-- `weekday_stat[weekday_name] += count`.  The stored names always come
from `JAPANESE_WEEKDAY_NAMES`, which are exactly the seven keys, so
Python's `KeyError` path cannot fire. -/
def bumpKey (ws : List (String × Nat)) (k : String) (n : Nat) :
    List (String × Nat) :=
  ws.map (fun p => if p.1 = k then (p.1, p.2 + n) else p)

/-- `daily[date_str] = count` (dict assignment: overwrite or append). -/
def setKey (ds : List (String × Nat)) (k : String) (n : Nat) :
    List (String × Nat) :=
  match pyGet ds k with
  | none => ds ++ [(k, n)]
  | some _ => ds.map (fun p => if p.1 = k then (p.1, n) else p)

/-- Python `<` on the rendered character lists (lexicographic by code
point). -/
def charListLt : List Char → List Char → Bool
  | [], [] => false
  | [], _ :: _ => true
  | _ :: _, [] => false
  | a :: as, b :: bs => if a < b then true else if b < a then false else charListLt as bs

def strLtB (a b : String) : Bool :=
  charListLt a.toList b.toList

def insertSorted (b : Bucket) : List Bucket → List Bucket
  | [] => [b]
  | x :: xs =>
    if strLtB b.date_str x.date_str then b :: x :: xs else x :: insertSorted b xs

/-- `sorted(self.container.values())`: the six-element lists are compared
lexicographically, and their first element `date_str` is the (unique) dict
key, so this is a sort by `date_str`. -/
def sortBuckets : List Bucket → List Bucket
  | [] => []
  | b :: bs => insertSorted b (sortBuckets bs)

/-- The `stat_body` built by `get_fukuoka_result`: the loop over the sorted
buckets accumulates `weekday_stat` and `daily`, and the four totals are the
sums of the per-bucket counts. -/
def get_fukuoka_result (c : Container) : StatBody :=
  let sortedB := sortBuckets (c.map (fun p => p.2))
  { total_stat := (sortedB.map (fun b => b.effective)).sum
    route_stat := (sortedB.map (fun b => b.route)).sum
    diagram_stat := (sortedB.map (fun b => b.diagram)).sum
    fare_stat := (sortedB.map (fun b => b.fare)).sum
    weekday_stat :=
      sortedB.foldl (fun ws b => bumpKey ws b.weekday_name b.effective)
        weekdayStatInit
    daily_stat :=
      sortedB.foldl (fun ds b => setKey ds b.date_str b.effective) [] }

/-! ## Spec-side comparison definitions -/

/-- The localized (Japanese) name of the actual day of the week, indexed in
Python's `weekday()` convention (Monday = 0 … Sunday = 6): 月曜日 Monday,
火曜日 Tuesday, 水曜日 Wednesday, 木曜日 Thursday, 金曜日 Friday,
土曜日 Saturday, 日曜日 Sunday.  This follows the spec's words "the
localized name of the bucket date's true day of the week" and is compared
against what the code stores. -/
def trueJapaneseWeekdayName (wd : Nat) : String :=
  (pyGet [(0, "月曜日"), (1, "火曜日"), (2, "水曜日"), (3, "木曜日"),
    (4, "金曜日"), (5, "土曜日"), (6, "日曜日")] wd).getD ""

/-- "Whitespace-delimited tokens" in the sense of the spec (Python's
`str.split()` with no argument: runs of whitespace separate tokens, no
empty tokens). -/
def whitespaceTokens (s : String) : List String :=
  (splitCharsAux (fun c => c.isWhitespace) s.toList []).filter
    (fun t => !(t == ""))

/-! ## Concrete log lines and states used in the properties below -/

/-- The initial state of one run: empty container, empty sinks. -/
def emptyState : AnalyzerState := ⟨[], [], []⟩

/-- Scenario A of the spec: a valid February 2024 hit on the index path. -/
def lineScenarioA : String :=
  "203.0.113.5 - - [10/Feb/2024:08:00:00 +0900] \"GET / HTTP/1.1\" 200 512 \"-\" \"UA\""

/-- The same hit one calendar year earlier (February 2019). -/
def lineFeb2019 : String :=
  "203.0.113.5 - - [10/Feb/2019:08:00:00 +0900] \"GET / HTTP/1.1\" 200 512 \"-\" \"UA\""

/-- A line the pattern matches whose datetime field does not parse in the
`%d/%b/%Y:%H:%M:%S` format. -/
def lineBadDate : String :=
  "203.0.113.5 - - [bad/date +0900] \"GET / HTTP/1.1\" 200 512 \"-\" \"UA\""

/-- A matched line with status 404. -/
def lineStatus404 : String :=
  "203.0.113.5 - - [10/Feb/2024:08:00:00 +0900] \"GET / HTTP/1.1\" 404 512 \"-\" \"UA\""

/-- An accepted line whose request field is `GET ` (a trailing space:
no second whitespace-delimited token, but `split(' ')[1]` is `""`). -/
def lineTrailingSpace : String :=
  "203.0.113.5 - - [10/Feb/2024:08:00:00 +0900] \"GET \" 200 512 \"-\" \"UA\""

/-- An accepted line whose request field is a single token, so
`split(' ')[1]` raises `IndexError`. -/
def lineNoUrl : String :=
  "203.0.113.5 - - [10/Feb/2024:08:00:00 +0900] \"X\" 200 512 \"-\" \"UA\""

/-! ## Properties -/

theorem digChar_ne_slash (n : Nat) : digChar n ≠ '/' := by
  unfold digChar
  split <;> decide

theorem digChar_inj : ∀ m < 10, ∀ n < 10, digChar m = digChar n → m = n := by
  decide

theorem digChar_pos_ne_zero : ∀ n < 10, 1 ≤ n → digChar n ≠ '0' := by
  decide

theorem digChar_val : ∀ n < 10, (digChar n).toNat - 48 = n := by
  decide

theorem digitsRevVal_toDigitsRevAux :
    ∀ (fuel n : Nat), n < fuel → digitsRevVal (toDigitsRevAux fuel n) = n := by
  intro fuel
  induction fuel with
  | zero => intro n h; omega
  | succ f ih =>
    intro n h
    by_cases h10 : n < 10
    · simp only [toDigitsRevAux, h10, if_true, digitsRevVal]
      rw [digChar_val n h10]
      omega
    · simp only [toDigitsRevAux, h10, if_false, digitsRevVal]
      rw [ih (n / 10) (by omega), digChar_val (n % 10) (Nat.mod_lt _ (by omega))]
      omega

theorem natToChars_inj {m n : Nat} (h : natToChars m = natToChars n) : m = n := by
  have h2 : toDigitsRevAux (m + 1) m = toDigitsRevAux (n + 1) n := by
    have := congrArg List.reverse h
    simpa [natToChars] using this
  calc m = digitsRevVal (toDigitsRevAux (m + 1) m) :=
        (digitsRevVal_toDigitsRevAux _ m (by omega)).symm
    _ = digitsRevVal (toDigitsRevAux (n + 1) n) := by rw [h2]
    _ = n := digitsRevVal_toDigitsRevAux _ n (by omega)

theorem toDigitsRevAux_no_slash :
    ∀ (fuel n : Nat), '/' ∉ toDigitsRevAux fuel n := by
  intro fuel
  induction fuel with
  | zero => intro n h; simp [toDigitsRevAux] at h
  | succ f ih =>
    intro n h
    by_cases h10 : n < 10
    · simp only [toDigitsRevAux, h10, if_true] at h
      exact digChar_ne_slash n (List.mem_singleton.mp h).symm
    · simp only [toDigitsRevAux, h10, if_false] at h
      rcases List.mem_cons.mp h with hc | hc
      · exact digChar_ne_slash _ hc.symm
      · exact ih (n / 10) hc

theorem natToChars_no_slash (n : Nat) : '/' ∉ natToChars n := by
  intro h
  exact toDigitsRevAux_no_slash (n + 1) n (List.mem_reverse.mp h)

/-- Two-digit rendering of a natural number below 100
(`[digChar (n / 10), digChar (n % 10)]`). -/
theorem natToChars_two {n : Nat} (h1 : 10 ≤ n) (h2 : n < 100) :
    natToChars n = [digChar (n / 10), digChar (n % 10)] := by
  obtain ⟨f, rfl⟩ : ∃ f, n = f + 10 := ⟨n - 10, by omega⟩
  unfold natToChars
  rw [toDigitsRevAux]
  simp only [show ¬ f + 10 < 10 by omega, if_false]
  rw [toDigitsRevAux]
  simp only [show (f + 10) / 10 < 10 by omega, if_true]
  simp

theorem pad2_no_slash (n : Nat) : '/' ∉ pad2 n := by
  unfold pad2
  split
  · intro h
    rcases List.mem_cons.mp h with h | h
    · exact absurd h.symm (by decide)
    · exact digChar_ne_slash n (List.mem_singleton.mp h).symm
  · exact natToChars_no_slash n

theorem pad2_inj {m n : Nat} (hm : m < 100) (hn : n < 100) (h : pad2 m = pad2 n) :
    m = n := by
  unfold pad2 at h
  split at h <;> split at h
  · rename_i h1 h2
    simp only [List.cons.injEq] at h
    exact digChar_inj m h1 n h2 h.2.1
  · rename_i h1 h2
    rw [natToChars_two (by omega) hn] at h
    simp only [List.cons.injEq] at h
    exact absurd h.1.symm
      (digChar_pos_ne_zero (n / 10) (by omega) (by omega))
  · rename_i h1 h2
    rw [natToChars_two (by omega) hm] at h
    simp only [List.cons.injEq] at h
    exact absurd h.1 (digChar_pos_ne_zero (m / 10) (by omega) (by omega))
  · rename_i h1 h2
    rw [natToChars_two (by omega) hm, natToChars_two (by omega) hn] at h
    simp only [List.cons.injEq] at h
    have ha := digChar_inj (m / 10) (by omega) (n / 10) (by omega) h.1
    have hb := digChar_inj (m % 10) (Nat.mod_lt _ (by omega))
      (n % 10) (Nat.mod_lt _ (by omega)) h.2.1
    omega

theorem monthLookup_mem :
    ∀ (t : List (List Char × Nat)) (cs : List Char) (m : Nat),
      monthLookup t cs = some m → ∃ k, (k, m) ∈ t := by
  intro t
  induction t with
  | nil => intro cs m h; exact Option.noConfusion h
  | cons p rest ih =>
    intro cs m h
    obtain ⟨k, v⟩ := p
    simp only [monthLookup] at h
    split at h
    · injection h with h2
      subst h2
      exact ⟨k, List.mem_cons_self _ _⟩
    · obtain ⟨k2, hk2⟩ := ih cs m h
      exact ⟨k2, List.mem_cons_of_mem _ hk2⟩

theorem monthFromAbbr_bounds {cs : List Char} {m : Nat}
    (h : monthFromAbbr cs = some m) : 1 ≤ m ∧ m ≤ 12 := by
  obtain ⟨k, hk⟩ := monthLookup_mem _ _ _ h
  have hall : ∀ p ∈ monthTable, 1 ≤ p.2 ∧ p.2 ≤ 12 := by decide
  exact hall (k, m) hk

theorem daysInMonth_le_31 (y m : Nat) : daysInMonth y m ≤ 31 := by
  unfold daysInMonth
  repeat' split
  all_goals omega

/-- Every successfully parsed timestamp satisfies the `datetime` range
invariants that the code downstream relies on. -/
theorem parseLogDatetime_bounds {s : String} {d : PDate}
    (h : parseLogDatetime s = some d) :
    1 ≤ d.year ∧ 1 ≤ d.month ∧ d.month ≤ 12 ∧ 1 ≤ d.day ∧ d.day ≤ 31 := by
  unfold parseLogDatetime at h
  repeat' split at h
  any_goals exact Option.noConfusion h
  rename_i hmon hcond
  injection h with h2
  subst h2
  simp only [Bool.and_eq_true, decide_eq_true_eq] at hcond
  have hmb := monthFromAbbr_bounds hmon
  have hle := le_trans hcond.1.1.1.2 (daysInMonth_le_31 _ _)
  exact ⟨hcond.1.1.1.1.1.2, hmb.1, hmb.2, hcond.1.1.1.1.2, hle⟩

theorem append_slash_inj {a1 b1 a2 b2 : List Char}
    (ha1 : '/' ∉ a1) (ha2 : '/' ∉ a2)
    (h : a1 ++ '/' :: b1 = a2 ++ '/' :: b2) : a1 = a2 ∧ b1 = b2 := by
  induction a1 generalizing a2 with
  | nil =>
    cases a2 with
    | nil => simpa using h
    | cons x xs =>
      exfalso
      simp only [List.nil_append, List.cons_append, List.cons.injEq] at h
      exact ha2 (h.1 ▸ List.mem_cons_self x xs)
  | cons x xs ih =>
    cases a2 with
    | nil =>
      exfalso
      simp only [List.cons_append, List.nil_append, List.cons.injEq] at h
      exact ha1 (h.1.symm ▸ List.mem_cons_self x xs)
    | cons y ys =>
      simp only [List.cons_append, List.cons.injEq] at h
      obtain ⟨rfl, h2⟩ := h
      have := ih (fun hm => ha1 (List.mem_cons_of_mem _ hm))
        (fun hm => ha2 (List.mem_cons_of_mem _ hm)) h2
      exact ⟨by rw [this.1], this.2⟩

/-- The aggregation key determines year, month and day (months and days of
parsed records are below 100, so the zero-padded rendering is injective). -/
theorem fmtDate_inj {d1 d2 : PDate}
    (hm1 : d1.month < 100) (hd1 : d1.day < 100)
    (hm2 : d2.month < 100) (hd2 : d2.day < 100)
    (h : fmtDate d1 = fmtDate d2) :
    d1.year = d2.year ∧ d1.month = d2.month ∧ d1.day = d2.day := by
  have hl : natToChars d1.year ++ '/' :: (pad2 d1.month ++ '/' :: pad2 d1.day)
      = natToChars d2.year ++ '/' :: (pad2 d2.month ++ '/' :: pad2 d2.day) := by
    have := congrArg String.data h
    simpa [fmtDate] using this
  obtain ⟨hy, hrest⟩ :=
    append_slash_inj (natToChars_no_slash _) (natToChars_no_slash _) hl
  obtain ⟨hm, hd⟩ := append_slash_inj (pad2_no_slash _) (pad2_no_slash _) hrest
  exact ⟨natToChars_inj hy, pad2_inj hm1 hm2 hm, pad2_inj hd1 hd2 hd⟩

/-- C1 (the code, against the claim): for `lineBadDate` — a line the
pattern matches whose datetime field fails to parse in the fixed
`DD/Mon/YYYY:HH:MM:SS` format — `check_date` does not return false: the
`ValueError` raised by `strptime` is not caught (only `AttributeError` is),
so it propagates out of `check_date` and out of the per-line loop of
`analyzer`, aborting the whole run instead of skipping the line. -/
theorem datetime_parse_failure_raises :
    parseLogDatetime (spaceHead "bad/date +0900") = none ∧
    check_date "bad/date +0900" 2 = .error .valueError ∧
    processLine fukuoka_sp 2 false "f" emptyState lineBadDate =
      .error .valueError :=
  ⟨by rfl, by rfl, by rfl⟩

/-- C2 (the code, against the claim): the weekday name stored in a
DayBucket is NOT the localized name of the bucket date's true day of the
week.  2024/02/10 is a Saturday (`pyWeekday = 5` in Python's Monday-0
convention, localized 土曜日), but processing Scenario A stores 金曜日
(Friday) and the report's `weekday_stat` credits the day's effective count
to 金曜日: `JAPANESE_WEEKDAY_NAMES` is indexed Sunday-0 while
`date.weekday()` is Monday-0, so every bucket is labelled with the name of
the weekday one before the true one (last conjunct: the lookup at index
`i` is the true name of weekday `(i + 6) % 7`). -/
theorem weekday_name_misaligned :
    (∃ st, processLine fukuoka_sp 2 false "f" emptyState lineScenarioA = .ok st ∧
      (pyGet st.container "2024/02/10").map (fun b => b.weekday_name) =
        some "金曜日" ∧
      pyGet (get_fukuoka_result st.container).weekday_stat "金曜日" = some 1 ∧
      pyGet (get_fukuoka_result st.container).weekday_stat "土曜日" = some 0) ∧
    (parseLogDatetime "10/Feb/2024:08:00:00").map pyWeekday = some 5 ∧
    trueJapaneseWeekdayName 5 = "土曜日" ∧
    ("金曜日" : String) ≠ "土曜日" ∧
    ((List.range 7).all fun i =>
      pyGet JAPANESE_WEEKDAY_NAMES i ==
        some (trueJapaneseWeekdayName ((i + 6) % 7))) = true :=
  ⟨⟨_, by rfl, by rfl, by rfl, by rfl⟩, by rfl, by rfl, by decide, by decide⟩

/-- C8: processing the single Scenario A line with target month 2 under the
`fukuoka`/`sp` profile (whose index paths are `['/']`) produces exactly one
DayBucket, keyed `2024/02/10`, with `effective = 1` and
`route = diagram = fare = 0`. -/
theorem scenario_a_bucket :
    dictGetStrs fukuoka_sp "index_pattern" = some ["/"] ∧
    ∃ st, processLine fukuoka_sp 2 false "f" emptyState lineScenarioA = .ok st ∧
      (pyGet st.container "2024/02/10").map
        (fun b => (b.effective, b.route, b.diagram, b.fare)) =
          some (1, 0, 0, 0) ∧
      st.container.length = 1 :=
  ⟨by rfl, _, by rfl, by rfl, by rfl⟩

/-- C10: the month filter compares only the month number against the target
and ignores the year — `check_date` accepts exactly when the parsed month
equals the target, whatever the year — and concretely, the same February
hit from 2019 and 2024 is accepted in one run with target month 2 and
aggregated under the distinct date keys `2019/02/10` and `2024/02/10`. -/
theorem month_filter_ignores_year :
    (∀ (s : String) (m : Nat) (d : PDate),
      parseLogDatetime (spaceHead s) = some d →
      check_date s m = .ok (d.month == m, spaceHead s)) ∧
    ∃ st, runLines fukuoka_sp 2 false "f" emptyState
        [lineFeb2019, lineScenarioA] = .ok st ∧
      (pyGet st.container "2019/02/10").map
        (fun b => (b.effective, b.route, b.diagram, b.fare)) =
          some (1, 0, 0, 0) ∧
      (pyGet st.container "2024/02/10").map
        (fun b => (b.effective, b.route, b.diagram, b.fare)) =
          some (1, 0, 0, 0) ∧
      pyGet (get_fukuoka_result st.container).daily_stat "2019/02/10" =
        some 1 ∧
      pyGet (get_fukuoka_result st.container).daily_stat "2024/02/10" =
        some 1 := by
  constructor
  · intro s m d h
    simp only [check_date, h]
  · exact ⟨_, by rfl, by rfl, by rfl, by rfl, by rfl⟩

theorem month_filter_ignores_year_witness :
    parseLogDatetime (spaceHead "10/Feb/2019:08:00:00 +0900") =
      some ⟨2019, 2, 10, 8, 0, 0⟩ ∧
    check_date "10/Feb/2019:08:00:00 +0900" 2 =
      .ok (true, spaceHead "10/Feb/2019:08:00:00 +0900") := by
  refine ⟨by rfl, ?_⟩
  exact month_filter_ignores_year.1 "10/Feb/2019:08:00:00 +0900" 2
    ⟨2019, 2, 10, 8, 0, 0⟩ (by rfl)

/-- C6: for every matched log line whose status field is not 200, the line
is dropped before the month filter with no observable effect: the container
and both sinks are exactly as before (the result state is the input state),
for every profile, month, flag, file and prior state. -/
theorem status_gate_frame (regs : List (String × RegVal)) (month : Nat)
    (ci : Bool) (file : String) (st : AnalyzerState) (line : String)
    (pl : ParsedLine) (h1 : parse_group line = some pl)
    (h2 : pyInt pl.status ≠ 200) :
    processLine regs month ci file st line = .ok st := by
  simp only [processLine, h1]
  rw [if_pos h2]

theorem status_gate_frame_witness :
    parse_group lineStatus404 =
      some ⟨"203.0.113.5", "10/Feb/2024:08:00:00 +0900", "GET / HTTP/1.1",
        "404", "512", "UA"⟩ ∧
    pyInt "404" ≠ 200 ∧
    processLine fukuoka_sp 2 false "f" emptyState lineStatus404 =
      .ok emptyState :=
  ⟨by rfl, by decide,
    status_gate_frame fukuoka_sp 2 false "f" emptyState lineStatus404
      ⟨"203.0.113.5", "10/Feb/2024:08:00:00 +0900", "GET / HTTP/1.1",
        "404", "512", "UA"⟩ (by rfl) (by decide)⟩

/-- C4 (the code, against the claim): with the default
`collect_invalid = False`, a line the pattern fails to match is NOT
recorded anywhere — the run leaves the invalid and unusual sinks empty —
so "the line is recorded in the diagnostics/invalid sink" fails. -/
theorem invalid_sink_counterexample :
    parse_group "hello" = none ∧
    processLine fukuoka_sp 2 false "f" emptyState "hello" = .ok emptyState ∧
    emptyState.invalid = [] ∧ emptyState.unusual = [] :=
  ⟨by rfl, by rfl, by rfl, by rfl⟩

/-- C4 (amended): for every log line that the line pattern fails to match,
the line is routed to the invalid sink — which appends `(file, line)` when
`collect_invalid` is enabled and discards it otherwise — and in both cases
no DayBucket is created or modified and the unusual sink is untouched. -/
theorem pattern_nomatch_amended (regs : List (String × RegVal)) (month : Nat)
    (ci : Bool) (file : String) (st : AnalyzerState) (line : String)
    (h : parse_group line = none) :
    processLine regs month ci file st line =
      .ok (if ci then { st with invalid := st.invalid ++ [(file, line)] }
        else st) := by
  simp only [processLine, h, get_invalid]

theorem pattern_nomatch_amended_witness :
    parse_group "hello" = none ∧
    processLine fukuoka_sp 2 true "f" emptyState "hello" =
      .ok ⟨[], [("f", "hello")], []⟩ := by
  refine ⟨by rfl, ?_⟩
  exact pattern_nomatch_amended fukuoka_sp 2 true "f" emptyState
    "hello" (by rfl)

/-- C7 (the code, against the claim): for the accepted record whose request
field is `GET ` — which has no second whitespace-delimited token — the
record does NOT contribute nothing to the DayBucket collection:
`split(' ')[1]` is the empty string, classification returns all-zero
counts, and a fresh all-zero DayBucket for `2024/02/10` is created where
none existed. -/
theorem no_second_token_counterexample :
    (whitespaceTokens "GET ").get? 1 = none ∧
    (parse_group lineTrailingSpace).map (fun r => r.request) = some "GET " ∧
    pyGet emptyState.container "2024/02/10" = none ∧
    ∃ st, processLine fukuoka_sp 2 false "f" emptyState lineTrailingSpace =
        .ok st ∧
      pyGet st.container "2024/02/10" =
        some ⟨"2024/02/10", "金曜日", 0, 0, 0, 0⟩ :=
  ⟨by rfl, by rfl, by rfl, _, by rfl, by rfl⟩

/-- C7 (amended): for every accepted record whose request field has no
second token under `split(' ')` (so `request.split(' ')[1]` raises
`IndexError` and `parse_request` returns `None`), the record is silently
dropped: no DayBucket is created or modified, nothing is written to either
sink, and the run continues (the result state is the input state).  A
request with an empty second space-split token (e.g. a trailing space)
instead classifies to all-zero counts and may create an all-zero bucket. -/
theorem no_second_token_amended (regs : List (String × RegVal)) (month : Nat)
    (ci : Bool) (file : String) (st : AnalyzerState) (line : String)
    (pl : ParsedLine) (d : PDate)
    (h1 : parse_group line = some pl)
    (h2 : pyInt pl.status = 200)
    (h3 : (pySplitSpace pl.request).get? 1 = none)
    (h4 : parseLogDatetime (spaceHead pl.datetime) = some d) :
    processLine regs month ci file st line = .ok st := by
  simp only [processLine, h1]
  rw [if_neg (fun hn => hn h2)]
  simp only [check_date, h4]
  split
  · rfl
  · simp only [store_into_container, h4, absorbP, parse_request, h3]

theorem no_second_token_amended_witness :
    parse_group lineNoUrl = some ⟨"203.0.113.5", "10/Feb/2024:08:00:00 +0900",
      "X", "200", "512", "UA"⟩ ∧
    pyInt "200" = 200 ∧
    (pySplitSpace "X").get? 1 = none ∧
    parseLogDatetime (spaceHead "10/Feb/2024:08:00:00 +0900") =
      some ⟨2024, 2, 10, 8, 0, 0⟩ ∧
    processLine fukuoka_sp 2 false "f" emptyState lineNoUrl = .ok emptyState :=
  ⟨by rfl, by rfl, by rfl, by rfl,
    no_second_token_amended fukuoka_sp 2 false "f" emptyState lineNoUrl
      ⟨"203.0.113.5", "10/Feb/2024:08:00:00 +0900", "X", "200", "512", "UA"⟩
      ⟨2024, 2, 10, 8, 0, 0⟩ (by rfl) (by rfl) (by rfl) (by rfl)⟩

/-- C3 (the code, against the claim): not every allowed
`(server_name, server_type)` pair resolves a complete PatternProfile.
`zentanbus` is in `ALLOWED_SERVER_NAMES` but absent from the registry, so
construction raises `AttributeError`; and `('fukuoka', 'pc')` resolves a
profile dict whose trigger lists sit under the singular keys
`route_pattern` / `diagram_pattern` / `fare_pattern` while the classifier
reads the plural keys, so classification raises `TypeError` at the first
classified line — which the bare `except` in `store_into_container`
swallows as a per-line skip, exactly the runtime skip the claim rules
out. -/
theorem profile_resolution_counterexample :
    ("zentanbus" ∈ ALLOWED_SERVER_NAMES ∧ "sp" ∈ ALLOWED_SERVER_TYPES ∧
      completeProfileB "zentanbus" "sp" = false ∧
      initRegulars "zentanbus" "sp" = .error .attributeError) ∧
    ("fukuoka" ∈ ALLOWED_SERVER_NAMES ∧ "pc" ∈ ALLOWED_SERVER_TYPES ∧
      completeProfileB "fukuoka" "pc" = false ∧
      initRegulars "fukuoka" "pc" = .ok fukuoka_pc ∧
      dictGetStrs fukuoka_pc "route_patterns" = none ∧
      parse_request fukuoka_pc "GET /route HTTP/1.1" = .error .typeError ∧
      store_into_container fukuoka_pc "10/Feb/2024:08:00:00"
        "GET /route HTTP/1.1" [] = .ok []) :=
  ⟨⟨by decide, by decide, by rfl, by rfl⟩,
    ⟨by decide, by decide, by rfl, by rfl, by rfl, by rfl, by rfl⟩⟩

/-- C3 (amended): among the allowed pairs, exactly `('fukuoka', 'sp')`
resolves a complete PatternProfile (a compiled line pattern plus the
`index_pattern`, `route_patterns`, `diagram_patterns` and `fare_patterns`
lists the classifier reads); every pair with server name `zentanbus` fails
at construction — before any line is processed — with `AttributeError`;
and in general every pair outside the registry's supported set — any
server name other than `fukuoka`, or any server type other than `sp` or
`pc` — fails the same way: the `dict.get` chain of `__init__` lines 66–67
raises `AttributeError` during construction, before any line is processed,
never as a runtime skip. -/
theorem profile_resolution_amended (n t : String)
    (hn : n ∈ ALLOWED_SERVER_NAMES) (ht : t ∈ ALLOWED_SERVER_TYPES) :
    (completeProfileB n t = true ↔ (n = "fukuoka" ∧ t = "sp")) ∧
    (n = "zentanbus" → initRegulars n t = .error .attributeError) ∧
    (∀ n2 t2 : String, ¬(n2 = "fukuoka" ∧ (t2 = "sp" ∨ t2 = "pc")) →
      initRegulars n2 t2 = .error .attributeError) := by
  have hgen : ∀ n2 t2 : String,
      ¬(n2 = "fukuoka" ∧ (t2 = "sp" ∨ t2 = "pc")) →
      initRegulars n2 t2 = .error .attributeError := by
    intro n2 t2 h
    by_cases hn2 : ("fukuoka" : String) = n2
    · have h1 : ¬(("sp" : String) = t2) :=
        fun he => h ⟨hn2.symm, Or.inl he.symm⟩
      have h2 : ¬(("pc" : String) = t2) :=
        fun he => h ⟨hn2.symm, Or.inr he.symm⟩
      simp only [initRegulars, LOG_REGULAR_EXPRESSIONS, pyGet, if_pos hn2,
        if_neg h1, if_neg h2]
    · simp only [initRegulars, LOG_REGULAR_EXPRESSIONS, pyGet, if_neg hn2]
  refine ⟨?_, ?_, hgen⟩
  · simp only [ALLOWED_SERVER_NAMES, ALLOWED_SERVER_TYPES, List.mem_cons,
      List.not_mem_nil, or_false] at hn ht
    rcases hn with rfl | rfl <;> rcases ht with rfl | rfl <;> decide
  · intro h2
    subst h2
    exact hgen "zentanbus" t (fun hc => absurd hc.1 (by decide))

theorem profile_resolution_amended_witness :
    ("fukuoka" ∈ ALLOWED_SERVER_NAMES) ∧ ("sp" ∈ ALLOWED_SERVER_TYPES) ∧
    ((completeProfileB "fukuoka" "sp" = true ↔
        ("fukuoka" = "fukuoka" ∧ "sp" = "sp")) ∧
      ("fukuoka" = "zentanbus" →
        initRegulars "fukuoka" "sp" = .error .attributeError) ∧
      (∀ n2 t2 : String, ¬(n2 = "fukuoka" ∧ (t2 = "sp" ∨ t2 = "pc")) →
        initRegulars n2 t2 = .error .attributeError)) :=
  ⟨by decide, by decide,
    profile_resolution_amended "fukuoka" "sp" (by decide) (by decide)⟩

/-- Each trigger loop of `parse_request` carries the pair of counters it
assigns: its result is `(1, 1)` when some trigger matches the url, the
initial pair otherwise. -/
theorem trigger_foldl (url : String) :
    ∀ (ps : List String) (e x : Nat),
      ps.foldl (fun (er : Nat × Nat) p => if reSearchSub p url then (1, 1) else er)
        (e, x)
        = (if ps.any (fun p => reSearchSub p url) then 1 else e,
           if ps.any (fun p => reSearchSub p url) then 1 else x) := by
  intro ps
  induction ps with
  | nil => intro e x; simp
  | cons p rest ih =>
    intro e x
    rw [List.foldl_cons, List.any_cons]
    cases hc : reSearchSub p url
    · simp only [Bool.false_eq_true, if_false, Bool.false_or]
      exact ih e x
    · rw [if_pos rfl, Bool.true_or, if_pos rfl, if_pos rfl, ih 1 1]
      simp only [ite_self]

/-- C5: for every request with a path token and every profile presenting
the four lists the classifier reads, `parse_request` computes the four
flags independently, each exactly 0 or 1: `route`, `diagram`, `fare` are 1
precisely when some trigger of their own list matches the path, and
`effective` is 1 precisely when the path is an index path or any trigger of
any category matches — so a path matching both a route and a fare trigger
yields `route = fare = effective = 1` with `diagram` untouched, and
repeated trigger matches assign 1 rather than increment. -/
theorem classification_flags (regs : List (String × RegVal)) (req url : String)
    (ip rps dps fps : List String)
    (hsplit : (pySplitSpace req).get? 1 = some url)
    (hip : dictGetStrs regs "index_pattern" = some ip)
    (hrps : dictGetStrs regs "route_patterns" = some rps)
    (hdps : dictGetStrs regs "diagram_patterns" = some dps)
    (hfps : dictGetStrs regs "fare_patterns" = some fps) :
    parse_request regs req = .ok (some (
      (if ip.contains url || rps.any (fun p => reSearchSub p url)
          || dps.any (fun p => reSearchSub p url)
          || fps.any (fun p => reSearchSub p url) then 1 else 0),
      (if rps.any (fun p => reSearchSub p url) then 1 else 0),
      (if dps.any (fun p => reSearchSub p url) then 1 else 0),
      (if fps.any (fun p => reSearchSub p url) then 1 else 0))) := by
  simp only [parse_request, hsplit, hip, hrps, hdps, hfps,
    trigger_foldl url]
  cases hc : ip.contains url <;>
    cases h1 : rps.any (fun p => reSearchSub p url) <;>
    cases h2 : dps.any (fun p => reSearchSub p url) <;>
    cases h3 : fps.any (fun p => reSearchSub p url) <;>
    simp

theorem classification_flags_witness :
    (pySplitSpace "GET /schedule/m_search/fare/fare_index HTTP/1.1").get? 1 =
      some "/schedule/m_search/fare/fare_index" ∧
    dictGetStrs fukuoka_sp "index_pattern" = some ["/"] ∧
    dictGetStrs fukuoka_sp "route_patterns" =
      some ["/schedule/m_search", "/schedule/m_search_detail", "/mobilet"] ∧
    dictGetStrs fukuoka_sp "diagram_patterns" =
      some ["/schedule/m_eki_diagram_k", "/schedule/m_eki_diagram_n"] ∧
    dictGetStrs fukuoka_sp "fare_patterns" = some ["/fare/fare_index"] ∧
    parse_request fukuoka_sp "GET /schedule/m_search/fare/fare_index HTTP/1.1" =
      .ok (some (1, 1, 0, 1)) := by
  refine ⟨by rfl, by rfl, by rfl, by rfl, by rfl, ?_⟩
  exact classification_flags fukuoka_sp
    "GET /schedule/m_search/fare/fare_index HTTP/1.1"
    "/schedule/m_search/fare/fare_index" ["/"]
    ["/schedule/m_search", "/schedule/m_search_detail", "/mobilet"]
    ["/schedule/m_eki_diagram_k", "/schedule/m_eki_diagram_n"]
    ["/fare/fare_index"] (by rfl) (by rfl) (by rfl) (by rfl) (by rfl)

theorem pyGet_append {α β : Type} [DecidableEq α]
    (c : List (α × β)) (k2 k : α) (b : β) :
    pyGet (c ++ [(k2, b)]) k =
      match pyGet c k with
      | some v => some v
      | none => if k2 = k then some b else none := by
  induction c with
  | nil => rfl
  | cons p rest ih =>
    obtain ⟨pk, pv⟩ := p
    by_cases hpk : pk = k
    · simp [pyGet, hpk]
    · simp only [List.cons_append, pyGet, if_neg hpk]
      exact ih

theorem pyGet_cons {α β : Type} [DecidableEq α] (pk : α) (pv : β)
    (rest : List (α × β)) (k : α) :
    pyGet ((pk, pv) :: rest) k = if pk = k then some pv else pyGet rest k := rfl

theorem setAssoc_cons (pk : String) (pv : Bucket) (rest : Container)
    (k2 : String) (b : Bucket) :
    setAssoc ((pk, pv) :: rest) k2 b =
      (if pk = k2 then (pk, b) else (pk, pv)) :: setAssoc rest k2 b := rfl

theorem pyGet_setAssoc (c : Container) (k2 k : String) (b : Bucket) :
    pyGet (setAssoc c k2 b) k =
      if k2 = k then (pyGet c k).map (fun _ => b) else pyGet c k := by
  induction c with
  | nil => simp [setAssoc, pyGet]
  | cons p rest ih =>
    obtain ⟨pk, pv⟩ := p
    rw [setAssoc_cons]
    by_cases hpk2 : pk = k2
    · rw [if_pos hpk2, pyGet_cons, pyGet_cons, ih]
      by_cases hpk : pk = k
      · rw [if_pos hpk, if_pos hpk, if_pos (hpk2.symm.trans hpk)]
        rfl
      · rw [if_neg hpk, if_neg hpk]
    · rw [if_neg hpk2, pyGet_cons, pyGet_cons, ih]
      by_cases hpk : pk = k
      · have hk2 : ¬ k2 = k := fun h => hpk2 (hpk.trans h.symm)
        rw [if_pos hpk, if_neg hk2, if_pos hpk]
      · rw [if_neg hpk, if_neg hpk]

theorem pyGet_absorbP (regs : List (String × RegVal)) (d : PDate)
    (req : String) (c : Container) (k : String) :
    pyGet (absorbP regs d req c) k =
      match parse_request regs req with
      | .ok (some (e, r, dg, f)) =>
        if fmtDate d = k then
          match pyGet c k with
          | none => some ⟨fmtDate d,
              (pyGet JAPANESE_WEEKDAY_NAMES (pyWeekday d)).getD "", e, r, dg, f⟩
          | some b => some ⟨b.date_str, b.weekday_name, b.effective + e,
              b.route + r, b.diagram + dg, b.fare + f⟩
        else pyGet c k
      | _ => pyGet c k := by
  cases hpr : parse_request regs req with
  | error e2 => simp only [absorbP, hpr]
  | ok o =>
    cases o with
    | none => simp only [absorbP, hpr]
    | some q =>
      obtain ⟨e, r, dg, f⟩ := q
      simp only [absorbP, hpr]
      by_cases hk : fmtDate d = k
      · subst hk
        cases hc : pyGet c (fmtDate d) with
        | none => simp [pyGet_append, hc]
        | some b => simp [pyGet_setAssoc, hc]
      · cases hc : pyGet c (fmtDate d) with
        | none =>
          rw [pyGet_append, if_neg hk]
          cases h2 : pyGet c k <;> simp [h2, hk]
        | some b =>
          rw [pyGet_setAssoc, if_neg hk, if_neg hk]

/-- Records with the same aggregation key have the same weekday (and hence
the same stored weekday name): the key determines year, month and day. -/
theorem fmtDate_eq_weekday {d1 d2 : PDate}
    (hm1 : d1.month < 100) (hd1 : d1.day < 100)
    (hm2 : d2.month < 100) (hd2 : d2.day < 100)
    (h : fmtDate d1 = fmtDate d2) : pyWeekday d1 = pyWeekday d2 := by
  obtain ⟨hy, hm, hd⟩ := fmtDate_inj hm1 hd1 hm2 hd2 h
  unfold pyWeekday pyOrdinal
  rw [hy, hm, hd]

/-- Two `store_into_container` absorptions of parsed records commute, as
observed through any container lookup. -/
theorem absorbStep_comm (regs : List (String × RegVal))
    (x y : String × String) (c : Container) (k : String) :
    pyGet (absorbStep regs y (absorbStep regs x c)) k =
      pyGet (absorbStep regs x (absorbStep regs y c)) k := by
  unfold absorbStep
  cases hx : parseLogDatetime x.1 with
  | none => cases hy : parseLogDatetime y.1 <;> rfl
  | some dx =>
    cases hy : parseLogDatetime y.1 with
    | none => rfl
    | some dy =>
      have bx := parseLogDatetime_bounds hx
      have by2 := parseLogDatetime_bounds hy
      rw [pyGet_absorbP, pyGet_absorbP, pyGet_absorbP, pyGet_absorbP]
      cases hpx : parse_request regs x.2 with
      | error e2 => rfl
      | ok ox =>
        cases ox with
        | none => rfl
        | some qx =>
          obtain ⟨ex, rx, dgx, fx⟩ := qx
          cases hpy : parse_request regs y.2 with
          | error e2 => rfl
          | ok oy =>
            cases oy with
            | none => rfl
            | some qy =>
              obtain ⟨ey, ry, dgy, fy⟩ := qy
              dsimp only
              by_cases hkx : fmtDate dx = k <;> by_cases hky : fmtDate dy = k
              · rw [if_pos hkx, if_pos hky, if_pos hkx, if_pos hky]
                have hW : pyWeekday dx = pyWeekday dy :=
                  fmtDate_eq_weekday (by omega) (by omega) (by omega) (by omega)
                    (hkx.trans hky.symm)
                cases hc : pyGet c k with
                | none =>
                  simp only [hc, hkx, hky, hW]
                  simp [Bucket.mk.injEq, hkx.trans hky.symm, Nat.add_comm]
                | some b =>
                  simp only [hc]
                  simp [Bucket.mk.injEq, Nat.add_assoc, Nat.add_comm,
                    Nat.add_left_comm]
              · simp only [if_pos hkx, if_neg hky]
              · simp only [if_neg hkx, if_pos hky]
              · simp only [if_neg hkx, if_neg hky]

theorem foldAbsorb_congr (regs : List (String × RegVal)) :
    ∀ (l : List (String × String)) (c1 c2 : Container),
      (∀ k, pyGet c1 k = pyGet c2 k) →
      ∀ k, pyGet (foldAbsorb regs l c1) k = pyGet (foldAbsorb regs l c2) k := by
  intro l
  induction l with
  | nil => intro c1 c2 h k; exact h k
  | cons rec rest ih =>
    intro c1 c2 h k
    simp only [foldAbsorb]
    apply ih
    intro k2
    unfold absorbStep
    cases hx : parseLogDatetime rec.1 with
    | none => exact h k2
    | some d =>
      rw [pyGet_absorbP, pyGet_absorbP, h k2]

/-- Absorbing a permuted record sequence yields the same container, as
observed through any lookup. -/
theorem foldAbsorb_perm (regs : List (String × RegVal))
    {l1 l2 : List (String × String)} (hp : l1.Perm l2) :
    ∀ (c : Container) (k : String),
      pyGet (foldAbsorb regs l1 c) k = pyGet (foldAbsorb regs l2 c) k := by
  induction hp with
  | nil => intro c k; rfl
  | cons x h ih =>
    intro c k
    simp only [foldAbsorb]
    exact ih _ k
  | swap x y l =>
    intro c k
    simp only [foldAbsorb]
    exact foldAbsorb_congr regs l _ _ (fun k2 => absorbStep_comm regs y x c k2) k
  | trans h1 h2 ih1 ih2 =>
    intro c k
    exact (ih1 c k).trans (ih2 c k)

/-- When every record's `date_time` parses, `runStore` is the pure fold. -/
theorem runStore_eq_foldAbsorb (regs : List (String × RegVal)) :
    ∀ (l : List (String × String)) (c : Container),
      (∀ r ∈ l, (parseLogDatetime r.1).isSome) →
      runStore regs c l = .ok (foldAbsorb regs l c) := by
  intro l
  induction l with
  | nil => intro c h; rfl
  | cons rec rest ih =>
    intro c h
    obtain ⟨dt, req⟩ := rec
    have h1 : (parseLogDatetime dt).isSome :=
      h (dt, req) (List.mem_cons_self _ _)
    obtain ⟨d, hd⟩ := Option.isSome_iff_exists.mp h1
    simp only [runStore, store_into_container, hd, foldAbsorb, absorbStep]
    exact ih _ (fun r hr => h r (List.mem_cons_of_mem _ hr))

theorem foldAbsorb_append (regs : List (String × RegVal)) :
    ∀ (l1 l2 : List (String × String)) (c : Container),
      foldAbsorb regs (l1 ++ l2) c = foldAbsorb regs l2 (foldAbsorb regs l1 c) := by
  intro l1
  induction l1 with
  | nil => intro l2 c; rfl
  | cons rec rest ih =>
    intro l2 c
    simp only [List.cons_append, foldAbsorb]
    exact ih l2 _

/-- C9: aggregation is order-independent and additive.  First conjunct: for
every permutation of a sequence of accepted `(date_time, request)` records
(all of whose timestamps parse, as the month filter guarantees upstream),
folding `store_into_container` over the two orders succeeds and produces
containers with identical lookups — the same dates, and per date the same
stored weekday name and the same four totals.  Second conjunct: appending
one more accepted, classifiable record changes exactly its own date's
bucket, by adding its four counts once (creating the bucket when absent) —
each record is absorbed exactly once, so absorbing an identical record
again adds its counts again (double-counting, no deduplication). -/
theorem aggregation_order_independent (regs : List (String × RegVal))
    (l1 l2 : List (String × String)) (hperm : l1.Perm l2)
    (hp : ∀ r ∈ l1, (parseLogDatetime r.1).isSome) :
    (∃ c1 c2, runStore regs [] l1 = .ok c1 ∧ runStore regs [] l2 = .ok c2 ∧
      ∀ k, pyGet c1 k = pyGet c2 k) ∧
    (∀ (l : List (String × String)) (dt req : String) (d : PDate)
        (e r dg f : Nat),
      (∀ x ∈ l, (parseLogDatetime x.1).isSome) →
      parseLogDatetime dt = some d →
      parse_request regs req = .ok (some (e, r, dg, f)) →
      ∃ c c2, runStore regs [] l = .ok c ∧
        runStore regs [] (l ++ [(dt, req)]) = .ok c2 ∧
        ∀ k, pyGet c2 k =
          if fmtDate d = k then
            match pyGet c k with
            | none => some ⟨fmtDate d,
                (pyGet JAPANESE_WEEKDAY_NAMES (pyWeekday d)).getD "",
                e, r, dg, f⟩
            | some b => some ⟨b.date_str, b.weekday_name, b.effective + e,
                b.route + r, b.diagram + dg, b.fare + f⟩
          else pyGet c k) := by
  constructor
  · have hp2 : ∀ r ∈ l2, (parseLogDatetime r.1).isSome :=
      fun r hr => hp r (hperm.symm.subset hr)
    exact ⟨foldAbsorb regs l1 [], foldAbsorb regs l2 [],
      runStore_eq_foldAbsorb regs l1 [] hp,
      runStore_eq_foldAbsorb regs l2 [] hp2,
      foldAbsorb_perm regs hperm []⟩
  · intro l dt req d e r dg f hl hdt hreq
    have hl2 : ∀ x ∈ l ++ [(dt, req)], (parseLogDatetime x.1).isSome := by
      intro x hx
      rcases List.mem_append.mp hx with hx | hx
      · exact hl x hx
      · rcases List.mem_singleton.mp hx with rfl
        simp [hdt]
    refine ⟨foldAbsorb regs l [], foldAbsorb regs (l ++ [(dt, req)]) [],
      runStore_eq_foldAbsorb regs l [] hl,
      runStore_eq_foldAbsorb regs (l ++ [(dt, req)]) [] hl2, ?_⟩
    intro k
    rw [foldAbsorb_append]
    show pyGet (foldAbsorb regs [(dt, req)] (foldAbsorb regs l [])) k = _
    simp only [foldAbsorb, absorbStep, hdt]
    rw [pyGet_absorbP]
    simp only [hreq]

theorem aggregation_order_independent_witness :
    (([("10/Feb/2019:08:00:00", "GET / HTTP/1.1"),
       ("10/Feb/2024:08:00:00", "GET /fare/fare_index HTTP/1.1")] :
        List (String × String)).Perm
      [("10/Feb/2024:08:00:00", "GET /fare/fare_index HTTP/1.1"),
       ("10/Feb/2019:08:00:00", "GET / HTTP/1.1")]) ∧
    (∀ r ∈ ([("10/Feb/2019:08:00:00", "GET / HTTP/1.1"),
       ("10/Feb/2024:08:00:00", "GET /fare/fare_index HTTP/1.1")] :
        List (String × String)), (parseLogDatetime r.1).isSome) ∧
    (∃ c1 c2,
      runStore fukuoka_sp []
        [("10/Feb/2019:08:00:00", "GET / HTTP/1.1"),
         ("10/Feb/2024:08:00:00", "GET /fare/fare_index HTTP/1.1")] = .ok c1 ∧
      runStore fukuoka_sp []
        [("10/Feb/2024:08:00:00", "GET /fare/fare_index HTTP/1.1"),
         ("10/Feb/2019:08:00:00", "GET / HTTP/1.1")] = .ok c2 ∧
      ∀ k, pyGet c1 k = pyGet c2 k) := by
  refine ⟨by decide, by decide, ?_⟩
  exact (aggregation_order_independent fukuoka_sp _ _ (by decide) (by decide)).1
